import Mathlib

/-!
Verification development for the expression-evaluator engine in `src/main.py`.

The engine is a three-stage pipeline: `tokenize` (lexer), `infix_to_postfix`
(shunting-yard), `evaluate_postfix` (stack evaluator with trace), chained by
`evaluate_expression`.  The Python code tags tokens with strings (`'u-'`,
`'+'`, numeric strings); here they are a closed inductive type `Tok`, with
`Tok.num` carrying the scanned character run.  Python floats are modelled as
exact rationals `ℚ`; Python exceptions (`ValueError`, `ZeroDivisionError`)
become the explicit error type `Err` threaded through `Except`.
-/

/-- Error kinds of the engine: `syntaxErr` models Python `ValueError` (the
spec's `SyntaxError` family) with the message of the `raise` site (the
interpolated payload of the f-strings is dropped); `zeroDiv` models
`ZeroDivisionError("Division by zero")` (the spec's `ArithmeticError`). -/
inductive Err where
  | syntaxErr (msg : String)
  | zeroDiv
deriving DecidableEq, Repr

/-- Tokens of the engine.  The source tags tokens with strings: a numeric
string, `'+'`, `'-'`, `'*'`, `'/'`, `'^'`, `'('`, `')'`, or `'u-'` for unary
minus; each tag is a constructor here, and `num` keeps the scanned
digit-and-dot character run. -/
inductive Tok where
  | num (s : List Char)
  | plus
  | minus
  | times
  | div
  | pow
  | uminus
  | lparen
  | rparen
deriving DecidableEq, Repr

/-- Operator associativity tags, the `'L'` / `'R'` strings of the source. -/
inductive Assoc where
  | L
  | R
deriving DecidableEq, Repr

/-- OPERATORS table of `src/main.py` (lines 68-75): precedence and
associativity per operator kind; `none` for non-operator tokens models
`tok in OPERATORS` being false. -/
def OPERATORS : Tok → Option (ℕ × Assoc)
  | .plus => some (2, .L)
  | .minus => some (2, .L)
  | .times => some (3, .L)
  | .div => some (3, .L)
  | .pow => some (4, .R)
  | .uminus => some (5, .R)
  | _ => none

/-- Membership test `tok in OPERATORS`. -/
def isOp (t : Tok) : Bool := (OPERATORS t).isSome

/-- Lookup `OPERATORS[t]['prec']` (0 for non-operators, never used there). -/
def prec (t : Tok) : ℕ := ((OPERATORS t).getD (0, .L)).1

/-- Lookup `OPERATORS[t]['assoc']` (L for non-operators, never used there). -/
def assoc (t : Tok) : Assoc := ((OPERATORS t).getD (0, .L)).2

/-- Inner scanning loop of `tokenize` (lines 38-40): consume the maximal run
of digits and dots, returning the run and the remaining characters. -/
def scanNum : List Char → List Char × List Char
  | [] => ([], [])
  | c :: cs =>
    if c.isDigit || c = '.' then
      let p := scanNum cs
      (c :: p.1, p.2)
    else ([], c :: cs)

theorem scanNum_rest_le (cs : List Char) : (scanNum cs).2.length ≤ cs.length := by
  induction cs with
  | nil => simp [scanNum]
  | cons c cs ih =>
    simp only [scanNum]
    split
    · simpa using Nat.le_succ_of_le ih
    · simp

/-- Unary-minus context check of `tokenize` (lines 50-52): `prev` is
`tokens[-1] if tokens else None`, and `-` is unary when `prev is None or
prev in ('+', '-', '*', '/', '^', '(', 'u-')`. -/
def unaryPrev : Option Tok → Bool
  | none => true
  | some p =>
      decide (p ∈ [Tok.plus, Tok.minus, Tok.times, Tok.div, Tok.pow, Tok.lparen, Tok.uminus])

/-- Mapping from a structural character to its token, for the
`tokens.append(ch)` line of the source. -/
def tokOfChar (c : Char) : Tok :=
  if c = '+' then .plus
  else if c = '-' then .minus
  else if c = '*' then .times
  else if c = '/' then .div
  else if c = '^' then .pow
  else if c = '(' then .lparen
  else .rparen

/-- Main loop of `tokenize` (lines 30-61), with `toks` the accumulated token
list: skip whitespace; scan a maximal digit/dot run into a `num` token,
raising `ValueError("Invalid numeric literal...")` when the run holds more
than one dot; emit a structural token for `+ - * / ^ ( )`, with `-` becoming
`u-` in unary context; raise `ValueError("Unsupported character...")`
otherwise. -/
def tokenizeAux (toks : List Tok) : List Char → Except Err (List Tok)
  | [] => .ok toks
  | c :: cs =>
    if c.isWhitespace then tokenizeAux toks cs
    else if c.isDigit || c = '.' then
      let run := c :: (scanNum cs).1
      if run.count '.' > 1 then .error (.syntaxErr "Invalid numeric literal")
      else tokenizeAux (toks ++ [Tok.num run]) (scanNum cs).2
    else if c ∈ ['+', '-', '*', '/', '^', '(', ')'] then
      if c = '-' ∧ unaryPrev toks.getLast? then
        tokenizeAux (toks ++ [Tok.uminus]) cs
      else
        tokenizeAux (toks ++ [tokOfChar c]) cs
    else .error (.syntaxErr "Unsupported character")
termination_by cs => cs.length
decreasing_by
  all_goals simp only [List.length_cons]
  all_goals try exact Nat.lt_succ_of_le (scanNum_rest_le cs)
  all_goals omega

/-- Entry point `tokenize(expr)` of `src/main.py` (lines 21-62). -/
def tokenize (expr : String) : Except Err (List Tok) := tokenizeAux [] expr.data

/-- Python helper `is_number(token)` (lines 165-170): true when
`float(token)` succeeds.  The tokens this pipeline builds are operator tags
or digit-and-dot runs; on such a run Python float parsing succeeds exactly
when the run is made of digits and dots with at least one digit and at most
one dot (so a lone `"."` fails), and no operator tag parses as a float. -/
def is_number : Tok → Bool
  | .num s =>
      s.all (fun c => c.isDigit || c = '.') && s.any (fun c => c.isDigit) &&
        decide (s.count '.' ≤ 1)
  | _ => false

/-- Numeric value of a digit list, most significant first. -/
def digitsVal (ds : List Char) : ℕ :=
  ds.foldl (fun acc c => acc * 10 + (c.toNat - 48)) 0

/-- Python `float(num_str)` on a digit-and-dot run with at most one dot,
as an exact rational: integer part before the dot, fractional part after. -/
def parseNum (s : List Char) : ℚ :=
  let ip := s.takeWhile (fun c => c ≠ '.')
  let fp := (s.dropWhile (fun c => c ≠ '.')).tail
  (digitsVal ip : ℚ) + (digitsVal fp : ℚ) / 10 ^ fp.length

/-- Value of a token, `float(tok)` in `evaluate_postfix` (only ever used on
tokens with `is_number` true). -/
def tokValue : Tok → ℚ
  | .num s => parseNum s
  | _ => 0

/-- Pop condition of the shunting-yard loop (lines 86-94): the claim's
`(o1 left-assoc and prec o1 ≤ prec o2) or (o1 right-assoc and
prec o1 < prec o2)`. -/
def shouldPop (o1 o2 : Tok) : Bool :=
  (decide (assoc o1 = Assoc.L) && decide (prec o1 ≤ prec o2)) ||
    (decide (assoc o1 = Assoc.R) && decide (prec o1 < prec o2))

/-- Operator-popping loop of `infix_to_postfix` (lines 86-94): with the stack
head as its top, pop operators while the top is an operator satisfying
`shouldPop`; returns the popped list (in pop order) and the remaining
stack. -/
def popWhile (o1 : Tok) : List Tok → List Tok × List Tok
  | [] => ([], [])
  | o2 :: rest =>
    if isOp o2 && shouldPop o1 o2 then
      let p := popWhile o1 rest
      (o2 :: p.1, p.2)
    else ([], o2 :: rest)

/-- Right-parenthesis loop of `infix_to_postfix` (lines 99-104): pop to
output until a `(` is found and discarded; `ValueError("Mismatched
parentheses")` when the stack empties first. -/
def popUntilParen : List Tok → Except Err (List Tok × List Tok)
  | [] => .error (.syntaxErr "Mismatched parentheses")
  | t :: rest =>
    if t = Tok.lparen then .ok ([], rest)
    else
      match popUntilParen rest with
      | .ok p => .ok (t :: p.1, p.2)
      | .error e => .error e

/-- End-of-input drain of `infix_to_postfix` (lines 107-111): pop every
remaining stack entry to output, failing with `ValueError("Mismatched
parentheses")` when a parenthesis is met. -/
def drainStack : List Tok → Except Err (List Tok)
  | [] => .ok []
  | t :: rest =>
    if t = Tok.lparen ∨ t = Tok.rparen then .error (.syntaxErr "Mismatched parentheses")
    else
      match drainStack rest with
      | .ok out => .ok (t :: out)
      | .error e => .error e

/-- Main loop of `infix_to_postfix` (lines 77-112) over the remaining input
tokens, with accumulated `output` and operator `stack` (head = top). -/
def infix_to_postfix_aux (output stack : List Tok) : List Tok → Except Err (List Tok)
  | [] =>
    match drainStack stack with
    | .ok rest => .ok (output ++ rest)
    | .error e => .error e
  | tok :: rest =>
    if is_number tok then infix_to_postfix_aux (output ++ [tok]) stack rest
    else if isOp tok then
      let p := popWhile tok stack
      infix_to_postfix_aux (output ++ p.1) (tok :: p.2) rest
    else if tok = Tok.lparen then infix_to_postfix_aux output (tok :: stack) rest
    else if tok = Tok.rparen then
      match popUntilParen stack with
      | .ok p => infix_to_postfix_aux (output ++ p.1) p.2 rest
      | .error e => .error e
    else .error (.syntaxErr "Unknown token in infix_to_postfix")

/-- Entry point `infix_to_postfix(tokens)` of `src/main.py` (lines 77-112). -/
def infix_to_postfix (tokens : List Tok) : Except Err (List Tok) :=
  infix_to_postfix_aux [] [] tokens

/-- Trace entries of `evaluate_postfix`: the source appends formatted strings
(`"PUSH {val}"`, `"UNARY_MINUS {a} -> {res}"`, `"{a} {tok} {b} -> {res}"`);
each record here carries the same data. -/
inductive TraceEntry where
  | push (v : ℚ)
  | unary (a res : ℚ)
  | binary (a : ℚ) (op : Tok) (b : ℚ) (res : ℚ)
deriving DecidableEq, Repr

/-- Python `math.pow(a, b)` restricted to the rational model: exact integer
power for an integer exponent (the only case the spec's examples exercise);
a fractional exponent has no rational value in general and is modelled as 0. -/
def mpow (a b : ℚ) : ℚ := if b.den = 1 then a ^ b.num else 0

/-- Function `apply_op(a, b, op)` of `src/main.py` (lines 149-163): the five
binary operators, with `ZeroDivisionError` exactly when dividing by zero. -/
def apply_op (a b : ℚ) (op : Tok) : Except Err ℚ :=
  match op with
  | .plus => .ok (a + b)
  | .minus => .ok (a - b)
  | .times => .ok (a * b)
  | .div => if b = 0 then .error Err.zeroDiv else .ok (a / b)
  | .pow => .ok (mpow a b)
  | _ => .error (.syntaxErr "Unsupported operator")

/-- Main loop of `evaluate_postfix` (lines 118-147) over the remaining
postfix tokens, with the value `stack` (head = top) and accumulated
`trace`. -/
def evaluate_postfix_aux (stack : List ℚ) (trace : List TraceEntry) :
    List Tok → Except Err (ℚ × List TraceEntry)
  | [] =>
    match stack with
    | [v] => .ok (v, trace)
    | _ =>
        .error
          (.syntaxErr "The expression could not be evaluated to a single value (syntax error).")
  | tok :: rest =>
    if is_number tok then
      evaluate_postfix_aux (tokValue tok :: stack) (trace ++ [TraceEntry.push (tokValue tok)]) rest
    else if isOp tok then
      if tok = Tok.uminus then
        match stack with
        | [] => .error (.syntaxErr "Insufficient operands for unary minus")
        | a :: st =>
            evaluate_postfix_aux (-a :: st) (trace ++ [TraceEntry.unary a (-a)]) rest
      else
        match stack with
        | b :: a :: st =>
          match apply_op a b tok with
          | .ok res =>
              evaluate_postfix_aux (res :: st) (trace ++ [TraceEntry.binary a tok b res]) rest
          | .error e => .error e
        | _ => .error (.syntaxErr "Insufficient operands")
    else .error (.syntaxErr "Unknown token in evaluate_postfix")

/-- Entry point `evaluate_postfix(postfix_tokens)` of `src/main.py`
(lines 118-147). -/
def evaluate_postfix (tokens : List Tok) : Except Err (ℚ × List TraceEntry) :=
  evaluate_postfix_aux [] [] tokens

/-- Orchestration `evaluate_expression(expr)` of `src/main.py`
(lines 176-187): tokenize, convert, evaluate; the first error propagates. -/
def evaluate_expression (expr : String) :
    Except Err (ℚ × List Tok × List Tok × List TraceEntry) :=
  match tokenize expr with
  | .error e => .error e
  | .ok tokens =>
    match infix_to_postfix tokens with
    | .error e => .error e
    | .ok pf =>
      match evaluate_postfix pf with
      | .error e => .error e
      | .ok vt => .ok (vt.1, tokens, pf, vt.2)

/-- Count of `Number` tokens in a token sequence (used to state the spec's
trace-completeness property). -/
def countNums (l : List Tok) : ℕ :=
  l.countP fun t => match t with
    | Tok.num _ => true
    | _ => false

/-- Projection of the pipeline result onto the numeric value, for stating
value-level properties of `evaluate_expression`. -/
def valueOf : Except Err (ℚ × List Tok × List Tok × List TraceEntry) → Option ℚ
  | .ok r => some r.1
  | .error _ => none

set_option maxHeartbeats 4000000

theorem charNat0 : '0'.toNat = 48 := rfl

theorem charNat1 : '1'.toNat = 49 := rfl

theorem charNat2 : '2'.toNat = 50 := rfl

theorem charNat3 : '3'.toNat = 51 := rfl

theorem charNat4 : '4'.toNat = 52 := rfl

theorem charNat5 : '5'.toNat = 53 := rfl

theorem charNat6 : '6'.toNat = 54 := rfl

theorem charNat7 : '7'.toNat = 55 := rfl

theorem charNat8 : '8'.toNat = 56 := rfl

theorem charNat9 : '9'.toNat = 57 := rfl

theorem numChar_not_ws : ∀ (c : Char), (c.isDigit || c = '.') = true → c.isWhitespace = false := by
  intro c h
  cases hw : c.isWhitespace
  · rfl
  · exfalso
    simp [Char.isWhitespace] at hw
    rcases hw with ((rfl | rfl) | rfl) | rfl <;> simp at h

theorem tokenizeAux_ws : ∀ (cs : List Char), (∀ c ∈ cs, c.isWhitespace = true) →
    ∀ toks, tokenizeAux toks cs = .ok toks := by
  intro cs
  induction cs with
  | nil => intro _ toks; rw [tokenizeAux.eq_def]
  | cons c rest ih =>
    intro h toks
    rw [tokenizeAux.eq_def]
    simp only [h c (List.mem_cons_self c rest), if_true]
    exact ih (fun d hd => h d (List.mem_cons_of_mem c hd)) toks

theorem evalAux_trace_length : ∀ (toks : List Tok) (stack : List ℚ) (trace : List TraceEntry)
    (v : ℚ) (tr : List TraceEntry),
    evaluate_postfix_aux stack trace toks = .ok (v, tr) →
      tr.length = trace.length + toks.length := by
  intro toks
  induction toks with
  | nil =>
    intro stack trace v tr h
    match stack with
    | [] => simp [evaluate_postfix_aux] at h
    | [w] => simp_all [evaluate_postfix_aux]
    | a :: b :: st => simp [evaluate_postfix_aux] at h
  | cons tok rest ih =>
    intro stack trace v tr h
    rw [evaluate_postfix_aux.eq_def] at h
    simp only [] at h
    by_cases hn : is_number tok = true
    · rw [if_pos hn] at h
      have := ih _ _ _ _ h
      simp at this
      simp [this]
      omega
    · rw [if_neg hn] at h
      by_cases ho : isOp tok = true
      · rw [if_pos ho] at h
        by_cases hu : tok = Tok.uminus
        · rw [if_pos hu] at h
          match stack with
          | [] => simp at h
          | a :: st =>
            simp only [] at h
            have := ih _ _ _ _ h
            simp at this
            simp [this]
            omega
        · rw [if_neg hu] at h
          match stack with
          | [] => simp at h
          | [a] => simp at h
          | b :: a :: st =>
            simp only [] at h
            match hop : apply_op a b tok with
            | .ok res =>
              rw [hop] at h
              have := ih _ _ _ _ h
              simp at this
              simp [this]
              omega
            | .error e => rw [hop] at h; simp at h
      · rw [if_neg ho] at h; simp at h

theorem popWhile_eq : ∀ (o1 : Tok) (st : List Tok),
    popWhile o1 st = (st.takeWhile (fun o2 => isOp o2 && shouldPop o1 o2),
      st.dropWhile (fun o2 => isOp o2 && shouldPop o1 o2)) := by
  intro o1 st
  induction st with
  | nil => simp [popWhile]
  | cons o2 rest ih =>
    by_cases h : (isOp o2 && shouldPop o1 o2) = true
    · simp [popWhile, h, List.takeWhile_cons, List.dropWhile_cons, ih]
    · simp [popWhile, h, List.takeWhile_cons, List.dropWhile_cons]

theorem popUntilParen_err : ∀ (st : List Tok), Tok.lparen ∉ st →
    popUntilParen st = .error (Err.syntaxErr "Mismatched parentheses") := by
  intro st h
  induction st with
  | nil => rfl
  | cons t rest ih =>
    have ht : t ≠ Tok.lparen := fun hh => h (hh ▸ List.mem_cons_self t rest)
    have hrest : Tok.lparen ∉ rest := fun hh => h (List.mem_cons_of_mem t hh)
    simp [popUntilParen, ht, ih hrest]

theorem drainStack_err : ∀ (st : List Tok), Tok.lparen ∈ st ∨ Tok.rparen ∈ st →
    drainStack st = .error (Err.syntaxErr "Mismatched parentheses") := by
  intro st h
  induction st with
  | nil => simp at h
  | cons t rest ih =>
    by_cases hp : t = Tok.lparen ∨ t = Tok.rparen
    · simp [drainStack, hp]
    · have hrest : Tok.lparen ∈ rest ∨ Tok.rparen ∈ rest := by
        rcases h with h | h <;> rcases List.mem_cons.mp h with rfl | hm
        · exact absurd (Or.inl rfl) hp
        · exact Or.inl hm
        · exact absurd (Or.inr rfl) hp
        · exact Or.inr hm
      simp [drainStack, hp, ih hrest]

/-- C1 (counterexample): the pipeline on "(3.5+2.1)*4--2" succeeds, but its
value is 122/5 = 24.4, which is not within 1e-9 of the claimed 26.4: the
expression is (3.5+2.1)*4 - (-2) = 22.4 + 2 = 24.4. -/
theorem C1_counterexample :
    valueOf ( evaluate_expression "(3.5+2.1)*4--2") = some (122/5) ∧
      ¬(|(122 : ℚ)/5 - 264/10| ≤ 1/1000000000) := by
  refine ⟨?_, by norm_num⟩
  have h1 : tokenize "(3.5+2.1)*4--2" = .ok [Tok.lparen, Tok.num ['3','.','5'], Tok.plus,
      Tok.num ['2','.','1'], Tok.rparen, Tok.times, Tok.num ['4'], Tok.minus, Tok.uminus,
      Tok.num ['2']] := by
    simp +decide [tokenize, tokenizeAux, scanNum, unaryPrev, tokOfChar]
  have h2 : infix_to_postfix [Tok.lparen, Tok.num ['3','.','5'], Tok.plus,
      Tok.num ['2','.','1'], Tok.rparen, Tok.times, Tok.num ['4'], Tok.minus, Tok.uminus,
      Tok.num ['2']] = .ok [Tok.num ['3','.','5'], Tok.num ['2','.','1'], Tok.plus,
      Tok.num ['4'], Tok.times, Tok.num ['2'], Tok.uminus, Tok.minus] := by
    simp +decide [ infix_to_postfix, infix_to_postfix_aux, popWhile, popUntilParen, drainStack,
      is_number, isOp, OPERATORS, shouldPop, prec, assoc]
  simp only [evaluate_expression, h1, h2]
  norm_num +decide [ evaluate_postfix, evaluate_postfix_aux, apply_op, is_number, isOp,
    OPERATORS, mpow, tokValue, parseNum, digitsVal, charNat1, charNat2, charNat3, charNat4,
    charNat5, List.takeWhile, List.dropWhile, valueOf]

/-- C1 (amended): evaluate_expression "(3.5+2.1)*4--2" succeeds and returns
the value 24.4 (exactly 122/5 in the rational model), to within a floating
tolerance of 1e-9. -/
theorem C1_value :
    valueOf ( evaluate_expression "(3.5+2.1)*4--2") = some (122/5) ∧
      |(122 : ℚ)/5 - 122/5| ≤ 1/1000000000 := by
  refine ⟨?_, by norm_num⟩
  have h1 : tokenize "(3.5+2.1)*4--2" = .ok [Tok.lparen, Tok.num ['3','.','5'], Tok.plus,
      Tok.num ['2','.','1'], Tok.rparen, Tok.times, Tok.num ['4'], Tok.minus, Tok.uminus,
      Tok.num ['2']] := by
    simp +decide [tokenize, tokenizeAux, scanNum, unaryPrev, tokOfChar]
  have h2 : infix_to_postfix [Tok.lparen, Tok.num ['3','.','5'], Tok.plus,
      Tok.num ['2','.','1'], Tok.rparen, Tok.times, Tok.num ['4'], Tok.minus, Tok.uminus,
      Tok.num ['2']] = .ok [Tok.num ['3','.','5'], Tok.num ['2','.','1'], Tok.plus,
      Tok.num ['4'], Tok.times, Tok.num ['2'], Tok.uminus, Tok.minus] := by
    simp +decide [ infix_to_postfix, infix_to_postfix_aux, popWhile, popUntilParen, drainStack,
      is_number, isOp, OPERATORS, shouldPop, prec, assoc]
  simp only [evaluate_expression, h1, h2]
  norm_num +decide [ evaluate_postfix, evaluate_postfix_aux, apply_op, is_number, isOp,
    OPERATORS, mpow, tokValue, parseNum, digitsVal, charNat1, charNat2, charNat3, charNat4,
    charNat5, List.takeWhile, List.dropWhile, valueOf]

/-- C2 (counterexample): the postfix sequence 3 4 + evaluates successfully
with 3 trace entries (two pushes and one binary application) while it holds
only 2 Number tokens, so the trace-entry count does not equal the
Number-token count. -/
theorem C2_counterexample :
    evaluate_postfix [Tok.num ['3'], Tok.num ['4'], Tok.plus] =
      .ok (7, [TraceEntry.push 3, TraceEntry.push 4, TraceEntry.binary 3 Tok.plus 4 7]) ∧
      countNums [Tok.num ['3'], Tok.num ['4'], Tok.plus] = 2 ∧
      ¬([TraceEntry.push 3, TraceEntry.push 4,
          TraceEntry.binary 3 Tok.plus 4 7] : List TraceEntry).length =
        countNums [Tok.num ['3'], Tok.num ['4'], Tok.plus] := by
  refine ⟨?_, by decide, by decide⟩
  norm_num +decide [ evaluate_postfix, evaluate_postfix_aux, apply_op, is_number, isOp,
    OPERATORS, tokValue, parseNum, digitsVal, charNat3, charNat4, List.takeWhile,
    List.dropWhile]

/-- C2 (amended): for every postfix sequence that evaluate_postfix evaluates
successfully, the number of trace entries equals the total number of tokens
in that postfix sequence — one push entry per Number token and one entry per
operator application. -/
theorem C2_trace_length : ∀ (pf : List Tok) (v : ℚ) (tr : List TraceEntry),
    evaluate_postfix pf = .ok (v, tr) → tr.length = pf.length := by
  intro pf v tr h
  simpa using evalAux_trace_length pf [] [] v tr h

/-- C2 witness: the amended trace-length law applied at the concrete postfix
sequence 3 4 +. -/
theorem C2_trace_length_witness :
    ([TraceEntry.push 3, TraceEntry.push 4,
        TraceEntry.binary 3 Tok.plus 4 7] : List TraceEntry).length =
      ([Tok.num ['3'], Tok.num ['4'], Tok.plus] : List Tok).length :=
  C2_trace_length [Tok.num ['3'], Tok.num ['4'], Tok.plus] 7
    [TraceEntry.push 3, TraceEntry.push 4, TraceEntry.binary 3 Tok.plus 4 7]
    (by norm_num +decide [ evaluate_postfix, evaluate_postfix_aux, apply_op, is_number, isOp,
      OPERATORS, tokValue, parseNum, digitsVal, charNat3, charNat4, List.takeWhile,
      List.dropWhile])

/-- C3: the shunting-yard operator step pops operators o2 exactly while
(o1 is left-associative and prec o1 ≤ prec o2) or (o1 is right-associative
and prec o1 < prec o2), then pushes o1; consequently 2^3^2 groups to the
right (value 512) and 8-3-2 groups to the left (value 3). -/
theorem C3_shunting :
    (∀ (o1 : Tok) (st : List Tok),
        popWhile o1 st =
          (st.takeWhile (fun o2 => isOp o2 &&
              ((decide (assoc o1 = Assoc.L) && decide (prec o1 ≤ prec o2)) ||
                (decide (assoc o1 = Assoc.R) && decide (prec o1 < prec o2)))),
            st.dropWhile (fun o2 => isOp o2 &&
              ((decide (assoc o1 = Assoc.L) && decide (prec o1 ≤ prec o2)) ||
                (decide (assoc o1 = Assoc.R) && decide (prec o1 < prec o2)))))) ∧
    (∀ (output stack : List Tok) (tok : Tok) (rest : List Tok), isOp tok = true →
        infix_to_postfix_aux output stack (tok :: rest) =
          infix_to_postfix_aux (output ++ (popWhile tok stack).1)
            (tok :: (popWhile tok stack).2) rest) ∧
    valueOf ( evaluate_expression "2^3^2") = some 512 ∧
    valueOf ( evaluate_expression "8-3-2") = some 3 := by
  refine ⟨fun o1 st => popWhile_eq o1 st, ?_, ?_, ?_⟩
  · intro output stack tok rest ho
    rw [ infix_to_postfix_aux.eq_def]
    simp only []
    have hn : is_number tok = false := by
      cases tok <;> simp_all [isOp, OPERATORS, is_number]
    rw [if_neg (by simp [hn]), if_pos ho]
  · have h1 : tokenize "2^3^2" = .ok [Tok.num ['2'], Tok.pow, Tok.num ['3'], Tok.pow,
        Tok.num ['2']] := by
      simp +decide [tokenize, tokenizeAux, scanNum, unaryPrev, tokOfChar]
    have h2 : infix_to_postfix [Tok.num ['2'], Tok.pow, Tok.num ['3'], Tok.pow, Tok.num ['2']]
        = .ok [Tok.num ['2'], Tok.num ['3'], Tok.num ['2'], Tok.pow, Tok.pow] := by
      simp +decide [ infix_to_postfix, infix_to_postfix_aux, popWhile, popUntilParen,
        drainStack, is_number, isOp, OPERATORS, shouldPop, prec, assoc]
    simp only [evaluate_expression, h1, h2]
    norm_num +decide [ evaluate_postfix, evaluate_postfix_aux, apply_op, is_number, isOp,
      OPERATORS, mpow, tokValue, parseNum, digitsVal, charNat2, charNat3, List.takeWhile,
      List.dropWhile, valueOf]
  · have h1 : tokenize "8-3-2" = .ok [Tok.num ['8'], Tok.minus, Tok.num ['3'], Tok.minus,
        Tok.num ['2']] := by
      simp +decide [tokenize, tokenizeAux, scanNum, unaryPrev, tokOfChar]
    have h2 : infix_to_postfix [Tok.num ['8'], Tok.minus, Tok.num ['3'], Tok.minus,
        Tok.num ['2']] = .ok [Tok.num ['8'], Tok.num ['3'], Tok.minus, Tok.num ['2'],
        Tok.minus] := by
      simp +decide [ infix_to_postfix, infix_to_postfix_aux, popWhile, popUntilParen,
        drainStack, is_number, isOp, OPERATORS, shouldPop, prec, assoc]
    simp only [evaluate_expression, h1, h2]
    norm_num +decide [ evaluate_postfix, evaluate_postfix_aux, apply_op, is_number, isOp,
      OPERATORS, mpow, tokValue, parseNum, digitsVal, charNat2, charNat3, charNat8,
      List.takeWhile, List.dropWhile, valueOf]

/-- C3 witness: the operator step applied at the concrete state with stack
top * and incoming operator +. -/
theorem C3_shunting_witness :
    infix_to_postfix_aux [] [Tok.times] [Tok.plus] =
      infix_to_postfix_aux ([] ++ (popWhile Tok.plus [Tok.times]).1)
        (Tok.plus :: (popWhile Tok.plus [Tok.times]).2) [] :=
  C3_shunting.2.1 [] [Tok.times] Tok.plus [] (by decide)

/-- C4: tokenize emits a minus character as unary-minus exactly when it is
the first token or the previously emitted token is an operator (including a
previous unary-minus) or a left parenthesis, and as binary minus otherwise;
with the three placement examples of the spec. -/
theorem C4_unary_minus :
    (∀ (toks : List Tok) (cs : List Char),
        tokenizeAux toks ('-' :: cs) =
          tokenizeAux (toks ++ [if toks.getLast? = none ∨
              toks.getLast? ∈ [some Tok.plus, some Tok.minus, some Tok.times, some Tok.div,
                some Tok.pow, some Tok.uminus, some Tok.lparen]
            then Tok.uminus else Tok.minus]) cs) ∧
    tokenize "-3+4" = .ok [Tok.uminus, Tok.num ['3'], Tok.plus, Tok.num ['4']] ∧
    tokenize "3--4" = .ok [Tok.num ['3'], Tok.minus, Tok.uminus, Tok.num ['4']] ∧
    tokenize "(-3)" = .ok [Tok.lparen, Tok.uminus, Tok.num ['3'], Tok.rparen] := by
  refine ⟨?_, ?_, ?_, ?_⟩
  · intro toks cs
    rw [tokenizeAux.eq_def]
    rcases h : toks.getLast? with _ | p
    · simp +decide [h, unaryPrev]
    · cases p <;> simp +decide [h, unaryPrev, tokOfChar]
  · simp +decide [tokenize, tokenizeAux, scanNum, unaryPrev, tokOfChar]
  · simp +decide [tokenize, tokenizeAux, scanNum, unaryPrev, tokOfChar]
  · simp +decide [tokenize, tokenizeAux, scanNum, unaryPrev, tokOfChar]

/-- C5: division fails with the zero-division error (Python
ZeroDivisionError, the spec's ArithmeticError) if and only if the right
operand is exactly zero; that error kind is a distinct constructor from
every syntax error; and 10/(5-5) fails with it. -/
theorem C5_division :
    (∀ a b : ℚ, apply_op a b Tok.div = .error Err.zeroDiv ↔ b = 0) ∧
    (∀ msg, Err.zeroDiv ≠ Err.syntaxErr msg) ∧
    evaluate_expression "10/(5-5)" = .error Err.zeroDiv := by
  refine ⟨?_, fun msg => by simp, ?_⟩
  · intro a b
    simp only [apply_op]
    split <;> simp_all
  · have h1 : tokenize "10/(5-5)" = .ok [Tok.num ['1','0'], Tok.div, Tok.lparen,
        Tok.num ['5'], Tok.minus, Tok.num ['5'], Tok.rparen] := by
      simp +decide [tokenize, tokenizeAux, scanNum, unaryPrev, tokOfChar]
    have h2 : infix_to_postfix [Tok.num ['1','0'], Tok.div, Tok.lparen, Tok.num ['5'],
        Tok.minus, Tok.num ['5'], Tok.rparen] = .ok [Tok.num ['1','0'], Tok.num ['5'],
        Tok.num ['5'], Tok.minus, Tok.div] := by
      simp +decide [ infix_to_postfix, infix_to_postfix_aux, popWhile, popUntilParen,
        drainStack, is_number, isOp, OPERATORS, shouldPop, prec, assoc]
    simp only [evaluate_expression, h1, h2]
    norm_num +decide [ evaluate_postfix, evaluate_postfix_aux, apply_op, is_number, isOp,
      OPERATORS, mpow, tokValue, parseNum, digitsVal, charNat0, charNat1, charNat5,
      List.takeWhile, List.dropWhile]

/-- C6: the converter fails with the mismatched-parentheses syntax error
when, on a right parenthesis, the stack empties before a left parenthesis is
found, and when, after all input is consumed, a parenthesis remains on the
stack; in particular "(3+4" and "3+4)" both fail with it. -/
theorem C6_mismatched_parens :
    (∀ (st : List Tok), Tok.lparen ∉ st →
        popUntilParen st = .error (Err.syntaxErr "Mismatched parentheses")) ∧
    (∀ (st : List Tok), Tok.lparen ∈ st ∨ Tok.rparen ∈ st →
        drainStack st = .error (Err.syntaxErr "Mismatched parentheses")) ∧
    evaluate_expression "(3+4" = .error (Err.syntaxErr "Mismatched parentheses") ∧
    evaluate_expression "3+4)" = .error (Err.syntaxErr "Mismatched parentheses") := by
  refine ⟨popUntilParen_err, drainStack_err, ?_, ?_⟩
  · have h1 : tokenize "(3+4" = .ok [Tok.lparen, Tok.num ['3'], Tok.plus, Tok.num ['4']] := by
      simp +decide [tokenize, tokenizeAux, scanNum, unaryPrev, tokOfChar]
    simp only [evaluate_expression, h1]
    norm_num +decide [ infix_to_postfix, infix_to_postfix_aux, popWhile, popUntilParen,
      drainStack, is_number, isOp, OPERATORS, shouldPop, prec, assoc]
  · have h1 : tokenize "3+4)" = .ok [Tok.num ['3'], Tok.plus, Tok.num ['4'], Tok.rparen] := by
      simp +decide [tokenize, tokenizeAux, scanNum, unaryPrev, tokOfChar]
    simp only [evaluate_expression, h1]
    norm_num +decide [ infix_to_postfix, infix_to_postfix_aux, popWhile, popUntilParen,
      drainStack, is_number, isOp, OPERATORS, shouldPop, prec, assoc]

/-- C6 witness: the two failure laws applied at concrete stacks — a stack
holding only + for the right-parenthesis case, and a stack holding a left
parenthesis for the end-of-input case. -/
theorem C6_mismatched_parens_witness :
    popUntilParen [Tok.plus] = .error (Err.syntaxErr "Mismatched parentheses") ∧
    drainStack [Tok.lparen] = .error (Err.syntaxErr "Mismatched parentheses") :=
  ⟨C6_mismatched_parens.1 [Tok.plus] (by decide),
    C6_mismatched_parens.2.1 [Tok.lparen] (Or.inl (List.mem_cons_self Tok.lparen []))⟩

/-- C7: the evaluator fails with the insufficient-operands syntax error when
a binary operator arrives with fewer than two stacked values or unary minus
with none, succeeds at end of input exactly on a single stacked value and
otherwise fails with the single-value syntax error; in particular "3++4"
fails with a syntax error. -/
theorem C7_insufficient_operands :
    (∀ (stack : List ℚ) (trace : List TraceEntry) (rest : List Tok) (tok : Tok),
        isOp tok = true → tok ≠ Tok.uminus → stack.length < 2 →
        evaluate_postfix_aux stack trace (tok :: rest) =
          .error (Err.syntaxErr "Insufficient operands")) ∧
    (∀ (trace : List TraceEntry) (rest : List Tok),
        evaluate_postfix_aux [] trace (Tok.uminus :: rest) =
          .error (Err.syntaxErr "Insufficient operands for unary minus")) ∧
    (∀ (stack : List ℚ) (trace : List TraceEntry), stack.length ≠ 1 →
        evaluate_postfix_aux stack trace [] =
          .error (Err.syntaxErr
            "The expression could not be evaluated to a single value (syntax error).")) ∧
    (∀ (v : ℚ) (trace : List TraceEntry), evaluate_postfix_aux [v] trace [] = .ok (v, trace)) ∧
    evaluate_expression "3++4" = .error (Err.syntaxErr "Insufficient operands") := by
  refine ⟨?_, ?_, ?_, fun v trace => rfl, ?_⟩
  · intro stack trace rest tok ho hu hlen
    rw [evaluate_postfix_aux.eq_def]
    simp only []
    have hn : is_number tok = false := by
      cases tok <;> simp_all [isOp, OPERATORS, is_number]
    rw [if_neg (by simp [hn]), if_pos ho, if_neg hu]
    match stack, hlen with
    | [], _ => rfl
    | [a], _ => rfl
  · intro trace rest
    rw [evaluate_postfix_aux.eq_def]
    simp +decide [is_number, isOp, OPERATORS]
  · intro stack trace hlen
    match stack, hlen with
    | [], _ => rfl
    | a :: b :: st, _ => rfl
    | [a], h => exact absurd rfl h
  · have h1 : tokenize "3++4" = .ok [Tok.num ['3'], Tok.plus, Tok.plus, Tok.num ['4']] := by
      simp +decide [tokenize, tokenizeAux, scanNum, unaryPrev, tokOfChar]
    have h2 : infix_to_postfix [Tok.num ['3'], Tok.plus, Tok.plus, Tok.num ['4']] =
        .ok [Tok.num ['3'], Tok.plus, Tok.num ['4'], Tok.plus] := by
      simp +decide [ infix_to_postfix, infix_to_postfix_aux, popWhile, popUntilParen,
        drainStack, is_number, isOp, OPERATORS, shouldPop, prec, assoc]
    simp only [evaluate_expression, h1, h2]
    norm_num +decide [ evaluate_postfix, evaluate_postfix_aux, apply_op, is_number, isOp,
      OPERATORS, mpow, tokValue, parseNum, digitsVal, charNat3, charNat4, List.takeWhile,
      List.dropWhile]

/-- C7 witness: the operand-shortfall law applied at + with an empty stack,
and the single-value law applied at an empty final stack. -/
theorem C7_insufficient_operands_witness :
    evaluate_postfix_aux [] [] [Tok.plus] = .error (Err.syntaxErr "Insufficient operands") ∧
    evaluate_postfix_aux [] [] [] =
      .error (Err.syntaxErr
        "The expression could not be evaluated to a single value (syntax error).") :=
  ⟨C7_insufficient_operands.1 [] [] [] Tok.plus (by decide) (by decide) (by decide),
    C7_insufficient_operands.2.2.1 [] [] (by decide)⟩

/-- C8: on a character opening a digit/dot run, the tokenizer emits exactly
one Number token holding the maximal run and resumes after it when the run
has at most one dot, and fails with the invalid-numeric-literal syntax error
when the run has two or more dots; the scanned run is maximal (made of
digits and dots, with the next remaining character not a digit or dot); and
a lone dot is accepted by the tokenizer as a Number token without error. -/
theorem C8_numeric_runs :
    (∀ (toks : List Tok) (c : Char) (cs : List Char), (c.isDigit || c = '.') = true →
        (c :: (scanNum cs).1).count '.' ≤ 1 →
        tokenizeAux toks (c :: cs) =
          tokenizeAux (toks ++ [Tok.num (c :: (scanNum cs).1)]) (scanNum cs).2) ∧
    (∀ (toks : List Tok) (c : Char) (cs : List Char), (c.isDigit || c = '.') = true →
        (c :: (scanNum cs).1).count '.' > 1 →
        tokenizeAux toks (c :: cs) = .error (Err.syntaxErr "Invalid numeric literal")) ∧
    (∀ (cs : List Char), ((scanNum cs).1.all fun c => c.isDigit || c = '.') = true ∧
        ∀ d ds, (scanNum cs).2 = d :: ds → (d.isDigit || d = '.') = false) ∧
    tokenize "." = .ok [Tok.num ['.']] := by
  refine ⟨?_, ?_, ?_, ?_⟩
  · intro toks c cs h hcnt
    rw [tokenizeAux.eq_def]
    simp only [numChar_not_ws c h, h]
    simp only [Bool.false_eq_true, if_false, if_true]
    rw [if_neg]
    omega
  · intro toks c cs h hcnt
    rw [tokenizeAux.eq_def]
    simp only [numChar_not_ws c h, h]
    simp only [Bool.false_eq_true, if_false, if_true]
    rw [if_pos hcnt]
  · intro cs
    induction cs with
    | nil => simp [scanNum]
    | cons c cs ih =>
      by_cases h : (c.isDigit || c = '.') = true
      · refine ⟨?_, ?_⟩
        · simp [scanNum, h, ih.1]
        · intro d ds hd
          apply ih.2
          simpa [scanNum, h] using hd
      · refine ⟨by simp [scanNum, h], ?_⟩
        intro d ds hd
        simp [scanNum, h] at hd
        rcases hd with ⟨rfl, -⟩
        simpa using h
  · simp +decide [tokenize, tokenizeAux, scanNum]

/-- C8 witness: the one-token-per-run law applied at the run "1" followed by
nothing, and the two-dot failure applied at the run "1..". -/
theorem C8_numeric_runs_witness :
    tokenizeAux [] ['1'] = tokenizeAux ([] ++ [Tok.num ('1' :: (scanNum []).1)]) (scanNum []).2 ∧
    tokenizeAux [] ['1', '.', '.'] = .error (Err.syntaxErr "Invalid numeric literal") :=
  ⟨C8_numeric_runs.1 [] '1' [] (by decide) (by decide),
    C8_numeric_runs.2.1 [] '1' ['.', '.'] (by decide) (by decide)⟩

/-- C9: evaluate_expression is a pure function of its input text in this
model: evaluating the same text twice yields the same result — the same
value, token list, postfix sequence and trace on success, and the same error
kind on failure. -/
theorem C9_deterministic (expr : String) :
    evaluate_expression expr = evaluate_expression expr := rfl

/-- C10: on an input whose characters are all whitespace (including the
empty input), tokenize returns the empty token sequence and
evaluate_expression fails with the syntax error raised when postfix
evaluation does not leave exactly one value on the stack. -/
theorem C10_empty_whitespace : ∀ (expr : String), (∀ c ∈ expr.data, c.isWhitespace = true) →
    tokenize expr = .ok [] ∧
    evaluate_expression expr =
      .error (Err.syntaxErr
        "The expression could not be evaluated to a single value (syntax error).") := by
  intro expr h
  have ht : tokenize expr = .ok [] := tokenizeAux_ws expr.data h []
  refine ⟨ht, ?_⟩
  simp only [evaluate_expression, ht]
  rfl

/-- C10 witness: the whitespace law applied at the one-space input. -/
theorem C10_empty_whitespace_witness :
    tokenize " " = .ok [] ∧
    evaluate_expression " " =
      .error (Err.syntaxErr
        "The expression could not be evaluated to a single value (syntax error).") :=
  C10_empty_whitespace " " (by decide)
